import Mathlib

/-!
Verification of the fusionamm-sdk pricing core (rust-sdk/core) against its
natural-language specification.

The embedding follows the Rust sources under src/rust-sdk/core/src.  Machine
integers are embedded as Nat (with explicit `% 2^w` where the Rust code can
wrap) and Int for the signed tick indices; fallible Rust functions returning
`Result<_, CoreError>` become `Except CoreError _`.

The repository ships `math/u256_math.rs`, `math/position.rs`,
`math/limit_order.rs`, `quote/swap.rs` and `quote/limit_order.rs`, but the
files `math/tick.rs`, `math/token.rs` and `math/tick_array.rs` (declared in
`math/mod.rs`) are not in the repository snapshot; the definitions below that
embed those functions are modelled from the specification (sections 4.2, 4.3,
4.4, 4.5) and carry a doc comment starting `Modelled from the spec:`.  Every
modelled definition is validated below against the concrete expected values
that the in-repository tests of `quote/swap.rs`, `quote/limit_order.rs` and
`math/position.rs` assert, which pins the model bit-for-bit on all code paths
those tests exercise.
-/

namespace FusionAmm

/-- Maximum value of a u64, from the Rust numeric domain. -/
def U64MAX : Nat := 2 ^ 64 - 1

/-- 2^256, the wrap modulus of the 256-bit arithmetic. -/
def TWO256 : Nat := 2 ^ 256

/-- The closed error enumeration of `constants/error.rs`, as a tagged sum
(the spec's section 9 prescribes exactly this translation of the static
string constants). -/
inductive CoreError where
  | tickArrayNotEvenlySpaced
  | tickIndexOutOfBounds
  | invalidTickIndex
  | arithmeticOverflow
  | amountExceedsMaxU64
  | amountExceedsLimitOrderInputAmount
  | sqrtPriceOutOfBounds
  | tickSequenceEmpty
  | sqrtPriceLimitOutOfBounds
  | invalidSqrtPriceLimitDirection
  | zeroTradableAmount
  | invalidTimestamp
  | invalidTransferFee
  | invalidSlippageTolerance
  | tickIndexNotInArray
  | invalidTickArraySequence
  | limitOrderAndPoolAreOutOfSync
deriving DecidableEq, Repr

/-- `FEE_RATE_MUL_VALUE` of `constants/swap.rs`. -/
def FEE_RATE_MUL_VALUE : Nat := 1000000

/-- `PROTOCOL_FEE_RATE_MUL_VALUE` of `constants/swap.rs`. -/
def PROTOCOL_FEE_RATE_MUL_VALUE : Nat := 10000

/-- `MAX_CLP_REWARD_RATE` of `constants/swap.rs`. -/
def MAX_CLP_REWARD_RATE : Nat := 10000

/-- `MIN_SQRT_PRICE` of `constants/swap.rs`. -/
def MIN_SQRT_PRICE : Nat := 4295048016

/-- `MAX_SQRT_PRICE` of `constants/swap.rs`. -/
def MAX_SQRT_PRICE : Nat := 79226673515401279992447579055

/-- `TICK_ARRAY_SIZE` of `constants/tick.rs`. -/
def TICK_ARRAY_SIZE : Nat := 88

/-- `MIN_TICK_INDEX` of `constants/tick.rs`. -/
def MIN_TICK_INDEX : Int := -443636

/-- `MAX_TICK_INDEX` of `constants/tick.rs`. -/
def MAX_TICK_INDEX : Int := 443636

/-- Integer division with a rounding flag: the exact mul-div primitive of the
spec's section 4.3 ("exact integer multiply-divide with an explicit rounding
flag (round-up or round-down)").  For a zero divisor both roundings give 0
(the Rust code never divides by zero on a path a claim below exercises). -/
def divRound (n d : Nat) (roundUp : Bool) : Nat :=
  if roundUp then n / d + (if n % d = 0 then 0 else 1) else n / d

/-- Modelled from the spec: `try_mul_div` of the missing `math/token.rs`
(section 4.3): `a * num / den` with the given rounding direction, failing
with `AMOUNT_EXCEEDS_MAX_U64` when the result leaves the u64 range. -/
def tryMulDiv (a num den : Nat) (roundUp : Bool) : Except CoreError Nat :=
  let v := divRound (a * num) den roundUp
  if v ≤ U64MAX then .ok v else .error .amountExceedsMaxU64

/-- Modelled from the spec: `try_apply_swap_fee` of the missing
`math/token.rs` (section 4.3, "apply swap fee (amount × (1 − rate))"),
rounded down. -/
def tryApplySwapFee (amount : Nat) (feeRate : Nat) : Except CoreError Nat :=
  tryMulDiv amount (FEE_RATE_MUL_VALUE - feeRate) FEE_RATE_MUL_VALUE false

/-- Modelled from the spec: `try_reverse_apply_swap_fee` of the missing
`math/token.rs` (section 4.3, "reverse-apply swap fee (recover pre-fee
amount)"), rounded up so the fee never favors the trader. -/
def tryReverseApplySwapFee (amount : Nat) (feeRate : Nat) : Except CoreError Nat :=
  tryMulDiv amount FEE_RATE_MUL_VALUE (FEE_RATE_MUL_VALUE - feeRate) true

/-- `TransferFee` of `types/token.rs`; `Default` derives to both fields 0. -/
structure TransferFee where
  fee_bps : Nat
  max_fee : Nat
deriving DecidableEq, Repr

/-- The derived `TransferFee::default()`: zero fee, zero cap. -/
def transferFeeDefault : TransferFee := ⟨0, 0⟩

/-- Modelled from the spec: `try_apply_transfer_fee` of the missing
`math/token.rs` (section 4.3, "apply transfer fee (amount × (1 − bps),
capped by a maximum fee)"): the fee is `ceil(amount·bps/10000)` capped at
`max_fee`, subtracted from the amount. -/
def tryApplyTransferFee (amount : Nat) (tf : TransferFee) : Except CoreError Nat :=
  let fee := min (divRound (amount * tf.fee_bps) 10000 true) tf.max_fee
  .ok (amount - fee)

/-- Modelled from the spec: `try_reverse_apply_transfer_fee` of the missing
`math/token.rs` (section 4.3, "solve for pre-fee amount given post-fee
amount and fee schedule, capped").  With a zero fee schedule it is the
identity, which is the only case the claims exercise. -/
def tryReverseApplyTransferFee (amount : Nat) (tf : TransferFee) : Except CoreError Nat :=
  if tf.fee_bps = 0 then .ok amount
  else
    let fee := min (divRound (amount * tf.fee_bps) (10000 - tf.fee_bps) true) tf.max_fee
    if amount + fee ≤ U64MAX then .ok (amount + fee) else .error .amountExceedsMaxU64

/-- Modelled from the spec: minimum-acceptable-output under slippage
(section 4.3, "minimum-acceptable-output = estimate × (1 − bps/10000)
rounded down"). -/
def tryGetMinAmountWithSlippageTolerance (amount bps : Nat) : Except CoreError Nat :=
  tryMulDiv amount (10000 - bps) 10000 false

/-- Modelled from the spec: maximum-acceptable-input under slippage
(section 4.3, "maximum-acceptable-input = estimate × (1 + bps/10000)
rounded up"). -/
def tryGetMaxAmountWithSlippageTolerance (amount bps : Nat) : Except CoreError Nat :=
  tryMulDiv amount (10000 + bps) 10000 true

/-- Modelled from the spec: the precomputed power table of the missing
`math/tick.rs` for non-negative ticks (section 4.2, "iterative
multiplication by precomputed powers of 1.0001^(2^k) selected by the bits
of |tick_index|"): entry k is `floor(2^96 · 1.0001^(2^k / 2))`, a Q64.96
fixed-point square root of a power of 1.0001. -/
def sqrtPricePosTable : List Nat :=
  [79232123823359799118286999567, 79236085330515764027303304731,
   79244008939048815603706035061, 79259858533276714757314932305,
   79291567232598584799939703904, 79355022692464371645785046466,
   79482085999252804386437311141, 79736823300114093921829183326,
   80248749790819932309965073892, 81282483887344747381513967011,
   83390072131320151908154831281, 87770609709833776024991924138,
   97234110755111693312479820773, 119332217159966728226237229890,
   179736315981702064433883588727, 407748233172238350107850275304,
   2098478828474011932436660412517, 55581415166113811149459800483533,
   38992368544603139932233054999993551]

/-- Modelled from the spec: the precomputed power table of the missing
`math/tick.rs` for negative ticks (section 4.2, the inverted powers):
entry k is `floor(2^64 / 1.0001^(2^k / 2))`, a Q64.64 fixed-point
reciprocal square root of a power of 1.0001. -/
def sqrtPriceNegTable : List Nat :=
  [18445821805675392311, 18444899583751176498, 18443055278223354162,
   18439367220385604838, 18431993317065449817, 18417254355718160513,
   18387811781193591352, 18329067761203520168, 18212142134806087854,
   17980523815641551639, 17526086738831147013, 16651378430235024244,
   15030750278693429944, 12247334978882834399, 8131365268884726200,
   3584323654723342297, 696457651847595233, 26294789957452057,
   37481735321082]

/-- One selected-bit multiply-and-rescale step of the power-table product. -/
def tickRatioStep (a shift : Nat) (tab : List Nat) (r : Nat) (k : Nat) : Nat :=
  if (a >>> k) % 2 = 1 then (r * tab.getD k 0) >>> shift else r

/-- Modelled from the spec: `tick_index_to_sqrt_price` of the missing
`math/tick.rs` (section 4.2).  Non-negative ticks accumulate the Q64.96
table and rescale to Q64.64 by a final 32-bit shift; negative ticks
accumulate the reciprocal Q64.64 table directly.  Validated against the
sqrt-price literals asserted by the tests in `quote/swap.rs`,
`quote/limit_order.rs` and `math/position.rs`. -/
def tickIndexToSqrtPrice (tick : Int) : Nat :=
  let a := tick.natAbs
  if 0 ≤ tick then
    let r0 := if a % 2 = 1 then sqrtPricePosTable.getD 0 0 else 2 ^ 96
    let r := (List.range 18).foldl (fun r i => tickRatioStep a 96 sqrtPricePosTable r (i + 1)) r0
    r >>> 32
  else
    let r0 := if a % 2 = 1 then sqrtPriceNegTable.getD 0 0 else 2 ^ 64
    (List.range 18).foldl (fun r i => tickRatioStep a 64 sqrtPriceNegTable r (i + 1)) r0

/-- Binary-search step count for the inverse price map (covers the whole
tick range `[-443636, 443636]`, 887272 grid points, in 20 halvings). -/
def sqrtPriceSearchSteps : Nat := 20

/-- Modelled from the spec: `sqrt_price_to_tick_index` of the missing
`math/tick.rs` (section 4.2, "bit-by-bit approximation (binary search over
the exponent)" that "must be the exact left-inverse of the forward map"):
the greatest representable tick whose sqrt-price does not exceed the
argument, found by binary search over the shifted range `[0, 887272]`. -/
def sqrtPriceToTickIndex (sqrtPrice : Nat) : Int :=
  let target := sqrtPrice
  let rec go : Nat → Nat → Nat → Nat
    | 0, lo, _ => lo
    | fuel + 1, lo, hi =>
      if lo < hi then
        let mid := (lo + hi + 1) / 2
        if tickIndexToSqrtPrice ((mid : Int) - 443636) ≤ target then
          go fuel mid hi
        else
          go fuel lo (mid - 1)
      else lo
  (go sqrtPriceSearchSteps 0 887272 : Int) - 443636

/-- Modelled from the spec: `try_get_amount_delta_a` of the missing
`math/token.rs` (section 4.5, "token-A delta as liquidity ×
(sqrt_price_upper − sqrt_price_lower) / (sqrt_price_lower ×
sqrt_price_upper)", in Q64.64 so scaled by 2^64, via the 256-bit primitive
with the specified rounding); overflow of u64 yields
`AMOUNT_EXCEEDS_MAX_U64`. -/
def tryGetAmountDeltaA (p1 p2 L : Nat) (roundUp : Bool) : Except CoreError Nat :=
  let lower := min p1 p2
  let upper := max p1 p2
  let v := divRound (L * (upper - lower) * 2 ^ 64) (upper * lower) roundUp
  if v ≤ U64MAX then .ok v else .error .amountExceedsMaxU64

/-- Modelled from the spec: `try_get_amount_delta_b` of the missing
`math/token.rs` (section 4.5, "token-B delta as liquidity ×
(sqrt_price_upper − sqrt_price_lower)", rescaled from Q64.64). -/
def tryGetAmountDeltaB (p1 p2 L : Nat) (roundUp : Bool) : Except CoreError Nat :=
  let lower := min p1 p2
  let upper := max p1 p2
  let v := divRound (L * (upper - lower)) (2 ^ 64) roundUp
  if v ≤ U64MAX then .ok v else .error .amountExceedsMaxU64

/-- Modelled from the spec: `try_get_next_sqrt_price_from_a` of the missing
`math/token.rs` (section 4.5, the inverse map from a token-A amount to the
next sqrt-price, with "rounding always favors the pool", hence rounded up):
`L·√P·2^64 / (L·2^64 ± amount·√P)`, the denominator adding the amount for a
specified input and subtracting it for a specified output. -/
def tryGetNextSqrtPriceFromA (p L amount : Nat) (specifiedInput : Bool) : Except CoreError Nat :=
  if amount = 0 then .ok p
  else
    let num := L * p * 2 ^ 64
    if specifiedInput then .ok (divRound num (L * 2 ^ 64 + amount * p) true)
    else if amount * p < L * 2 ^ 64 then .ok (divRound num (L * 2 ^ 64 - amount * p) true)
    else .error .sqrtPriceOutOfBounds

/-- Modelled from the spec: `try_get_next_sqrt_price_from_b` of the missing
`math/token.rs` (section 4.5): the price moves by `amount·2^64 / L`, rounded
down when the amount is a specified input and up when it is a specified
output, so the rounding always favors the pool. -/
def tryGetNextSqrtPriceFromB (p L amount : Nat) (specifiedInput : Bool) : Except CoreError Nat :=
  if amount = 0 then .ok p
  else
    let delta := divRound (amount * 2 ^ 64) L (!specifiedInput)
    if specifiedInput then .ok (p + delta)
    else if delta ≤ p then .ok (p - delta) else .error .sqrtPriceOutOfBounds

/-- Modelled from the spec: `mul_by_sqrt_price_squared` of the missing
`math/token.rs` (section 4.6, "for a→b orders multiply input by
sqrt_price²"; Q64.64 squared gives the 2^128 rescale), with the explicit
rounding flag and the u64 range check. -/
def mulBySqrtPriceSquared (amount sqrtPrice : Nat) (roundUp : Bool) : Except CoreError Nat :=
  let v := divRound (amount * sqrtPrice * sqrtPrice) (2 ^ 128) roundUp
  if v ≤ U64MAX then .ok v else .error .amountExceedsMaxU64

/-- Modelled from the spec: `div_by_sqrt_price_squared` of the missing
`math/token.rs` (section 4.6, "for b→a orders divide by sqrt_price²"). -/
def divBySqrtPriceSquared (amount sqrtPrice : Nat) (roundUp : Bool) : Except CoreError Nat :=
  let v := divRound (amount * 2 ^ 128) (sqrtPrice * sqrtPrice) roundUp
  if v ≤ U64MAX then .ok v else .error .amountExceedsMaxU64

/-- `get_limit_order_output_amount` of `math/limit_order.rs`. -/
def getLimitOrderOutputAmount (inputAmount : Nat) (aToBOrder : Bool) (sqrtPrice : Nat)
    (roundUp : Bool) : Except CoreError Nat :=
  if aToBOrder then mulBySqrtPriceSquared inputAmount sqrtPrice roundUp
  else divBySqrtPriceSquared inputAmount sqrtPrice roundUp

/-- `TickFacade` of `types/tick.rs`. -/
structure TickFacade where
  initialized : Bool
  liquidity_net : Int
  liquidity_gross : Nat
  fee_growth_outside_a : Nat
  fee_growth_outside_b : Nat
  age : Nat
  open_orders_input : Nat
  part_filled_orders_input : Nat
  part_filled_orders_remaining_input : Nat
  fulfilled_a_to_b_orders_input : Nat
  fulfilled_b_to_a_orders_input : Nat
deriving DecidableEq, Repr

/-- The derived `TickFacade::default()`: every field zero / false. -/
def tickFacadeDefault : TickFacade := ⟨false, 0, 0, 0, 0, 0, 0, 0, 0, 0, 0⟩

/-- `TickArrayFacade` of `types/tick.rs`; its fixed `[TickFacade; 88]` is
embedded as a list (the constructions below always build length-88 lists). -/
structure TickArrayFacade where
  start_tick_index : Int
  ticks : List TickFacade
deriving DecidableEq, Repr

/-- `FusionPoolFacade` of `types/pool.rs`.  The field `clp_reward_rate`
that `quote/limit_order.rs` reads is included; the snapshot's struct
declares `clp_to_olp_reward_ratio` in its place (the two files of the
snapshot disagree), and that field is unused by every function embedded
here. -/
structure FusionPoolFacade where
  tick_spacing : Nat
  fee_rate : Nat
  protocol_fee_rate : Nat
  clp_reward_rate : Nat
  order_protocol_fee_rate : Nat
  liquidity : Nat
  sqrt_price : Nat
  tick_current_index : Int
  fee_growth_global_a : Nat
  fee_growth_global_b : Nat
  orders_total_amount_a : Nat
  orders_total_amount_b : Nat
  orders_filled_amount_a : Nat
  orders_filled_amount_b : Nat
  olp_fee_owed_a : Nat
  olp_fee_owed_b : Nat
deriving DecidableEq, Repr

/-- The derived `FusionPoolFacade::default()`: every field zero. -/
def fusionPoolDefault : FusionPoolFacade := ⟨0, 0, 0, 0, 0, 0, 0, 0, 0, 0, 0, 0, 0, 0, 0, 0⟩

/-- `LimitOrderFacade` of `types/limit_order.rs`. -/
structure LimitOrderFacade where
  tick_index : Int
  amount : Nat
  a_to_b : Bool
  age : Nat
deriving DecidableEq, Repr

/-- `LimitOrderDecreaseQuote` as `decrease_limit_order_quote` of
`quote/limit_order.rs` constructs it (amounts out per token and rewards;
the snapshot's `types/limit_order.rs` also declares `fee_a`/`fee_b` fields
that the constructor in `quote/limit_order.rs` does not set — the two files
of the snapshot disagree, and the quote function is the authority here). -/
structure LimitOrderDecreaseQuote where
  amount_out_a : Nat
  amount_out_b : Nat
  reward_a : Nat
  reward_b : Nat
deriving DecidableEq, Repr

/-- `ExactInSwapQuote` of `types/swap.rs`. -/
structure ExactInSwapQuote where
  token_in : Nat
  token_est_out : Nat
  token_min_out : Nat
  trade_fee : Nat
  next_sqrt_price : Nat
deriving DecidableEq, Repr

/-- `SwapResult` of `quote/swap.rs`. -/
structure SwapResult where
  token_a : Nat
  token_b : Nat
  fee_amount : Nat
  next_sqrt_price : Nat
deriving DecidableEq, Repr

/-- Modelled from the spec: the tick-array sequence view of the missing
`math/tick_array.rs` (section 4.4): the arrays ordered by start index
together with the pool's tick spacing. -/
structure TickArraySequence where
  arrays : List TickArrayFacade
  tick_spacing : Nat
deriving DecidableEq, Repr

/-- Insertion of one array into a list sorted by `start_tick_index`. -/
def insertArray (a : TickArrayFacade) : List TickArrayFacade → List TickArrayFacade
  | [] => [a]
  | b :: rest =>
    if a.start_tick_index ≤ b.start_tick_index then a :: b :: rest
    else b :: insertArray a rest

/-- Sort of the supplied arrays by start index. -/
def sortArrays (arrays : List TickArrayFacade) : List TickArrayFacade :=
  arrays.foldr insertArray []

/-- Adjacent-pair spacing check over the sorted arrays. -/
def evenlySpaced (spacing : Nat) : List TickArrayFacade → Bool
  | a :: b :: rest =>
    decide (b.start_tick_index - a.start_tick_index = (TICK_ARRAY_SIZE * spacing : Nat))
      && evenlySpaced spacing (b :: rest)
  | _ => true

/-- Modelled from the spec: `TickArraySequence::new` of the missing
`math/tick_array.rs` (section 4.4): sorts the arrays by `start_tick_index`
and demands that consecutive starts differ by exactly
`tick_spacing × array_size`, else `TICK_ARRAY_NOT_EVENLY_SPACED`; an empty
collection is `TICK_SEQUENCE_EMPTY`. -/
def tickArraySequenceNew (arrays : List TickArrayFacade) (spacing : Nat) :
    Except CoreError TickArraySequence :=
  let sorted := sortArrays arrays
  if sorted.isEmpty then .error .tickSequenceEmpty
  else if evenlySpaced spacing sorted then .ok ⟨sorted, spacing⟩
  else .error .tickArrayNotEvenlySpaced

/-- First tick index covered by the sequence. -/
def TickArraySequence.startIndex (s : TickArraySequence) : Int :=
  (s.arrays.headD ⟨0, []⟩).start_tick_index

/-- One-past-the-last tick index covered by the sequence. -/
def TickArraySequence.endIndex (s : TickArraySequence) : Int :=
  s.startIndex + (s.arrays.length * TICK_ARRAY_SIZE * s.tick_spacing : Nat)

/-- The tick stored at a covered, spacing-aligned index. -/
def TickArraySequence.getTick (s : TickArraySequence) (t : Int) : TickFacade :=
  let off := (t - s.startIndex).toNat
  let a := s.arrays.getD (off / (TICK_ARRAY_SIZE * s.tick_spacing)) ⟨0, []⟩
  a.ticks.getD ((t - a.start_tick_index).toNat / s.tick_spacing) tickFacadeDefault

/-- Downward scan of `prev_initialized_tick`, by grid steps. -/
def TickArraySequence.prevScan (s : TickArraySequence) : Nat → Int → Except CoreError (TickFacade × Int)
  | 0, _ => .error .invalidTickArraySequence
  | fuel + 1, t =>
    if t < s.startIndex then .error .invalidTickArraySequence
    else
      let tk := s.getTick t
      if tk.initialized then .ok (tk, t) else s.prevScan fuel (t - (s.tick_spacing : Nat))

/-- Modelled from the spec: `prev_initialized_tick` of the missing
`math/tick_array.rs` (section 4.4): the nearest initialized tick at a
spacing-aligned index not above the query (snapping the query down to the
grid and clamping into the covered span), or `INVALID_TICK_ARRAY_SEQUENCE`
once the scan runs off the low end of the supplied arrays. -/
def TickArraySequence.prevInitializedTick (s : TickArraySequence) (i : Int) :
    Except CoreError (TickFacade × Int) :=
  let sp : Int := (s.tick_spacing : Nat)
  let t0 := min ((Int.fdiv i sp) * sp) (s.endIndex - sp)
  s.prevScan (TICK_ARRAY_SIZE * s.arrays.length + 1) t0

/-- Upward scan of `next_initialized_tick`, by grid steps. -/
def TickArraySequence.nextScan (s : TickArraySequence) : Nat → Int → Except CoreError (TickFacade × Int)
  | 0, _ => .error .invalidTickArraySequence
  | fuel + 1, t =>
    if s.endIndex ≤ t then .error .invalidTickArraySequence
    else
      let tk := s.getTick t
      if tk.initialized then .ok (tk, t) else s.nextScan fuel (t + (s.tick_spacing : Nat))

/-- Modelled from the spec: `next_initialized_tick` of the missing
`math/tick_array.rs` (section 4.4): the nearest initialized tick at a
spacing-aligned index strictly above the query (clamped up into the covered
span), or `INVALID_TICK_ARRAY_SEQUENCE` once the scan runs off the high end
of the supplied arrays. -/
def TickArraySequence.nextInitializedTick (s : TickArraySequence) (i : Int) :
    Except CoreError (TickFacade × Int) :=
  let sp : Int := (s.tick_spacing : Nat)
  let t0 := max ((Int.fdiv i sp) * sp + sp) s.startIndex
  s.nextScan (TICK_ARRAY_SIZE * s.arrays.length + 1) t0

/-- `SwapStepQuote` of `quote/swap.rs`. -/
structure SwapStepQuote where
  amount_in : Nat
  amount_out : Nat
  next_sqrt_price : Nat
  fee_amount : Nat
deriving DecidableEq, Repr

/-- `LimitSwapComputation` of `quote/swap.rs`. -/
structure LimitSwapComputation where
  amount_in : Nat
  fee_amount : Nat
  amount_out : Nat
deriving DecidableEq, Repr

/-- The derived `LimitSwapComputation::default()`: all zero. -/
def limitSwapDefault : LimitSwapComputation := ⟨0, 0, 0⟩

/-- `try_get_amount_fixed_delta` of `quote/swap.rs`. -/
def tryGetAmountFixedDelta (currentSqrtPrice targetSqrtPrice currentLiquidity : Nat)
    (aToB specifiedInput : Bool) : Except CoreError Nat :=
  if aToB = specifiedInput then
    tryGetAmountDeltaA currentSqrtPrice targetSqrtPrice currentLiquidity specifiedInput
  else
    tryGetAmountDeltaB currentSqrtPrice targetSqrtPrice currentLiquidity specifiedInput

/-- `try_get_amount_unfixed_delta` of `quote/swap.rs`. -/
def tryGetAmountUnfixedDelta (currentSqrtPrice targetSqrtPrice currentLiquidity : Nat)
    (aToB specifiedInput : Bool) : Except CoreError Nat :=
  if specifiedInput = aToB then
    tryGetAmountDeltaB currentSqrtPrice targetSqrtPrice currentLiquidity (!specifiedInput)
  else
    tryGetAmountDeltaA currentSqrtPrice targetSqrtPrice currentLiquidity (!specifiedInput)

/-- `try_get_next_sqrt_price` of `quote/swap.rs`. -/
def tryGetNextSqrtPrice (currentSqrtPrice currentLiquidity amountCalculated : Nat)
    (aToB specifiedInput : Bool) : Except CoreError Nat :=
  if specifiedInput = aToB then
    tryGetNextSqrtPriceFromA currentSqrtPrice currentLiquidity amountCalculated specifiedInput
  else
    tryGetNextSqrtPriceFromB currentSqrtPrice currentLiquidity amountCalculated specifiedInput

/-- `compute_swap_step` of `quote/swap.rs`.  The two unchecked u64
subtractions computing the fee are embedded as Nat subtraction; on every
path where the function can return they do not underflow. -/
def computeSwapStep (amountRemaining feeRate currentLiquidity currentSqrtPrice
    targetSqrtPrice : Nat) (aToB specifiedInput : Bool) : Except CoreError SwapStepQuote := do
  let initialAmountFixedDelta :=
    tryGetAmountFixedDelta currentSqrtPrice targetSqrtPrice currentLiquidity aToB specifiedInput
  let isInitialAmountFixedOverflow :=
    match initialAmountFixedDelta with
    | .error .amountExceedsMaxU64 => true
    | _ => false
  let amountCalculated ←
    if specifiedInput then tryApplySwapFee amountRemaining feeRate else pure amountRemaining
  let nextSqrtPrice ←
    if isInitialAmountFixedOverflow then
      tryGetNextSqrtPrice currentSqrtPrice currentLiquidity amountCalculated aToB specifiedInput
    else
      match initialAmountFixedDelta with
      | .error e => .error e
      | .ok v =>
        if v ≤ amountCalculated then pure targetSqrtPrice
        else tryGetNextSqrtPrice currentSqrtPrice currentLiquidity amountCalculated aToB specifiedInput
  let isMaxSwap := nextSqrtPrice == targetSqrtPrice
  let amountUnfixedDelta ←
    tryGetAmountUnfixedDelta currentSqrtPrice nextSqrtPrice currentLiquidity aToB specifiedInput
  let amountFixedDelta ←
    if !isMaxSwap || isInitialAmountFixedOverflow then
      tryGetAmountFixedDelta currentSqrtPrice nextSqrtPrice currentLiquidity aToB specifiedInput
    else
      initialAmountFixedDelta
  let amountIn := if specifiedInput then amountFixedDelta else amountUnfixedDelta
  let amountOut0 := if specifiedInput then amountUnfixedDelta else amountFixedDelta
  let amountOut := if !specifiedInput && decide (amountOut0 > amountRemaining) then amountRemaining
    else amountOut0
  let feeAmount ←
    if specifiedInput && !isMaxSwap then pure (amountRemaining - amountIn)
    else do
      let preFeeAmount ← tryReverseApplySwapFee amountIn feeRate
      pure (preFeeAmount - amountIn)
  pure ⟨amountIn, amountOut, nextSqrtPrice, feeAmount⟩

/-- `get_next_liquidity` of `quote/swap.rs`.  The unchecked u128 addition
and subtraction are embedded as Nat operations. -/
def getNextLiquidity (currentLiquidity : Nat) (nextTick : Option TickFacade) (aToB : Bool) : Nat :=
  let liquidityNet := (nextTick.map (·.liquidity_net)).getD 0
  let liquidityNetUnsigned := liquidityNet.natAbs
  if aToB then
    if liquidityNet < 0 then currentLiquidity + liquidityNetUnsigned
    else currentLiquidity - liquidityNetUnsigned
  else if liquidityNet < 0 then currentLiquidity - liquidityNetUnsigned
  else currentLiquidity + liquidityNetUnsigned

/-- `fill_limit_orders` of `quote/swap.rs`.  The unchecked u64 additions
and the subtraction `amount_remaining - fee_amount` are embedded as Nat
operations (the subtraction cannot underflow: the fee rate is a u16,
far below `FEE_RATE_MUL_VALUE`). -/
def fillLimitOrders (tick : Option TickFacade) (sqrtPrice : Nat) (aToB amountSpecifiedIsInput : Bool)
    (amountRemaining feeRate : Nat) : Except CoreError LimitSwapComputation := do
  match tick with
  | none => pure limitSwapDefault
  | some tick =>
    let partFilledOrdersRemainingInput :=
      tick.open_orders_input + tick.part_filled_orders_remaining_input
    if amountSpecifiedIsInput then do
      let amountIn ← getLimitOrderOutputAmount partFilledOrdersRemainingInput (!aToB) sqrtPrice true
      let amountOut := partFilledOrdersRemainingInput
      let feeAmount ← tryMulDiv amountIn feeRate (FEE_RATE_MUL_VALUE - feeRate) true
      if amountRemaining < amountIn + feeAmount then do
        let totalAvailableAmountIn := amountIn
        let feeAmount ← tryMulDiv amountRemaining feeRate FEE_RATE_MUL_VALUE true
        let amountIn := amountRemaining - feeAmount
        let amountOut ← tryMulDiv partFilledOrdersRemainingInput amountIn totalAvailableAmountIn false
        pure ⟨amountIn, feeAmount, amountOut⟩
      else
        pure ⟨amountIn, feeAmount, amountOut⟩
    else do
      let amountOut := min partFilledOrdersRemainingInput amountRemaining
      let amountIn ← getLimitOrderOutputAmount amountOut (!aToB) sqrtPrice true
      let feeAmount ← tryMulDiv amountIn feeRate (FEE_RATE_MUL_VALUE - feeRate) true
      pure ⟨amountIn, feeAmount, amountOut⟩

/-- Errors of the embedded swap loop: a core error of the Rust code, or
exhaustion of the loop fuel the embedding threads through the Rust `while`
(the claims below always run with sufficient fuel, and every theorem about
the loop holds for every fuel). -/
inductive SwapErr where
  | core (e : CoreError)
  | outOfFuel
deriving DecidableEq, Repr

/-- A `CoreError` result lifted into the loop's error type. -/
def liftE {α : Type} : Except CoreError α → Except SwapErr α
  | .ok a => .ok a
  | .error e => .error (.core e)

/-- `checked_sub` on u64: the wraparound case is the fatal
`ARITHMETIC_OVERFLOW` of `compute_swap`. -/
def checkedSub (a b : Nat) : Except SwapErr Nat :=
  if b ≤ a then .ok (a - b) else .error (.core .arithmeticOverflow)

/-- `checked_add` on u64: the wraparound case is the fatal
`ARITHMETIC_OVERFLOW` of `compute_swap`. -/
def checkedAddU64 (a b : Nat) : Except SwapErr Nat :=
  if a + b ≤ U64MAX then .ok (a + b) else .error (.core .arithmeticOverflow)

/-- The scalar state the `compute_swap` loop advances. -/
structure SwapState where
  amountRemaining : Nat
  amountCalculated : Nat
  currentSqrtPrice : Nat
  currentTickIndex : Int
  currentLiquidity : Nat
  feeAmount : Nat
deriving DecidableEq, Repr

/-- Ghost record of one `compute_swap` loop iteration: the concentrated
step quote and the limit-order fill of that iteration (the fill is the
all-zero default on iterations that do not land on a tick boundary). -/
structure StepRec where
  step : SwapStepQuote
  lim : LimitSwapComputation
deriving DecidableEq, Repr

/-- The amount one loop iteration consumes from `amount_remaining`: the
fixed-side amount plus the fee in exact-input mode, the output amount in
exact-output mode, for both the concentrated step and the limit fill. -/
def consumedOfRec (specifiedInput : Bool) (r : StepRec) : Nat :=
  if specifiedInput then
    r.step.amount_in + r.step.fee_amount + r.lim.amount_in + r.lim.fee_amount
  else
    r.step.amount_out + r.lim.amount_out

/-- Total consumption of a run of loop iterations. -/
def consumedSum (specifiedInput : Bool) (recs : List StepRec) : Nat :=
  (recs.map (consumedOfRec specifiedInput)).sum

/-- One iteration of the `compute_swap` loop body (`quote/swap.rs` lines
198-270), returning the advanced state and the iteration's ghost record. -/
def swapIter (feeRate : Nat) (seq : TickArraySequence) (sqrtPriceLimit : Nat)
    (aToB specifiedInput : Bool) (st : SwapState) : Except SwapErr (SwapState × StepRec) := do
  let found ← liftE (if aToB then seq.prevInitializedTick st.currentTickIndex
                     else seq.nextInitializedTick st.currentTickIndex)
  let nextTick := found.1
  let nextTickIndex := found.2
  let nextTickSqrtPrice := tickIndexToSqrtPrice nextTickIndex
  let targetSqrtPrice := if aToB then max nextTickSqrtPrice sqrtPriceLimit
                         else min nextTickSqrtPrice sqrtPriceLimit
  let stepQuote ← liftE (computeSwapStep st.amountRemaining feeRate st.currentLiquidity
    st.currentSqrtPrice targetSqrtPrice aToB specifiedInput)
  let feeAmount1 := st.feeAmount + stepQuote.fee_amount
  let consumed1 ←
    if specifiedInput then do
      let r ← checkedSub st.amountRemaining stepQuote.amount_in
      let r ← checkedSub r stepQuote.fee_amount
      let c ← checkedAddU64 st.amountCalculated stepQuote.amount_out
      pure (r, c)
    else do
      let r ← checkedSub st.amountRemaining stepQuote.amount_out
      let c ← checkedAddU64 st.amountCalculated stepQuote.amount_in
      let c ← checkedAddU64 c stepQuote.fee_amount
      pure (r, c)
  let rem1 := consumed1.1
  let calc1 := consumed1.2
  if stepQuote.next_sqrt_price = nextTickSqrtPrice then do
    let lc ← liftE (fillLimitOrders (some nextTick) nextTickSqrtPrice aToB specifiedInput rem1 feeRate)
    let feeAmount2 := feeAmount1 + lc.fee_amount
    let consumed2 ←
      if specifiedInput then do
        let r ← checkedSub rem1 lc.amount_in
        let r ← checkedSub r lc.fee_amount
        let c ← checkedAddU64 calc1 lc.amount_out
        pure (r, c)
      else do
        let r ← checkedSub rem1 lc.amount_out
        let c ← checkedAddU64 calc1 lc.amount_in
        let c ← checkedAddU64 c lc.fee_amount
        pure (r, c)
    let liquidity2 := getNextLiquidity st.currentLiquidity (some nextTick) aToB
    let tick2 := if aToB then nextTickIndex - 1 else nextTickIndex
    pure (⟨consumed2.1, consumed2.2, stepQuote.next_sqrt_price, tick2, liquidity2, feeAmount2⟩,
      ⟨stepQuote, lc⟩)
  else
    let tick1 := if stepQuote.next_sqrt_price ≠ st.currentSqrtPrice then
        sqrtPriceToTickIndex stepQuote.next_sqrt_price
      else st.currentTickIndex
    pure (⟨rem1, calc1, stepQuote.next_sqrt_price, tick1, st.currentLiquidity, feeAmount1⟩,
      ⟨stepQuote, limitSwapDefault⟩)

/-- The `while` loop of `compute_swap`, with explicit fuel; alongside the
final state it returns the ghost records of the iterations it ran. -/
def swapLoop (feeRate : Nat) (seq : TickArraySequence) (sqrtPriceLimit : Nat)
    (aToB specifiedInput : Bool) : Nat → SwapState → Except SwapErr (SwapState × List StepRec)
  | 0, st =>
    if st.amountRemaining = 0 ∨ sqrtPriceLimit = st.currentSqrtPrice then .ok (st, [])
    else .error .outOfFuel
  | fuel + 1, st =>
    if st.amountRemaining = 0 ∨ sqrtPriceLimit = st.currentSqrtPrice then .ok (st, [])
    else do
      let step ← swapIter feeRate seq sqrtPriceLimit aToB specifiedInput st
      let rest ← swapLoop feeRate seq sqrtPriceLimit aToB specifiedInput fuel step.1
      pure (rest.1, step.2 :: rest.2)

/-- The defaulting of a zero `sqrt_price_limit` argument to the protocol
bound for the swap direction (`quote/swap.rs` lines 168-176). -/
def defaultedSqrtPriceLimit (sqrtPriceLimit0 : Nat) (aToB : Bool) : Nat :=
  if sqrtPriceLimit0 = 0 then
    if aToB then MIN_SQRT_PRICE else MAX_SQRT_PRICE
  else sqrtPriceLimit0

/-- `compute_swap` of `quote/swap.rs`, with the loop's ghost data exposed:
the result, the final `amount_remaining`, and the per-iteration records. -/
def computeSwapWithSteps (fuel : Nat) (tokenAmount sqrtPriceLimit0 : Nat)
    (fusionPool : FusionPoolFacade) (tickSequence : TickArraySequence)
    (aToB specifiedInput : Bool) : Except SwapErr (SwapResult × Nat × List StepRec) :=
  let sqrtPriceLimit := defaultedSqrtPriceLimit sqrtPriceLimit0 aToB
  if ¬(MIN_SQRT_PRICE ≤ sqrtPriceLimit ∧ sqrtPriceLimit ≤ MAX_SQRT_PRICE) then
    .error (.core .sqrtPriceLimitOutOfBounds)
  else if (aToB ∧ sqrtPriceLimit ≥ fusionPool.sqrt_price) ∨
      (¬aToB ∧ sqrtPriceLimit ≤ fusionPool.sqrt_price) then
    .error (.core .invalidSqrtPriceLimitDirection)
  else if tokenAmount = 0 then
    .error (.core .zeroTradableAmount)
  else do
    let fin ← swapLoop fusionPool.fee_rate tickSequence sqrtPriceLimit aToB specifiedInput fuel
      ⟨tokenAmount, 0, fusionPool.sqrt_price, fusionPool.tick_current_index,
        fusionPool.liquidity, 0⟩
    let st := fin.1
    let swappedAmount := tokenAmount - st.amountRemaining
    let tokenA := if aToB = specifiedInput then swappedAmount else st.amountCalculated
    let tokenB := if aToB = specifiedInput then st.amountCalculated else swappedAmount
    pure (⟨tokenA, tokenB, st.feeAmount, st.currentSqrtPrice⟩, st.amountRemaining, fin.2)

/-- `compute_swap` of `quote/swap.rs` (the result alone). -/
def computeSwap (fuel : Nat) (tokenAmount sqrtPriceLimit : Nat) (fusionPool : FusionPoolFacade)
    (tickSequence : TickArraySequence) (aToB specifiedInput : Bool) :
    Except SwapErr SwapResult :=
  (computeSwapWithSteps fuel tokenAmount sqrtPriceLimit fusionPool tickSequence
    aToB specifiedInput).map (·.1)

/-- `swap_quote_by_input_token` of `quote/swap.rs`. -/
def swapQuoteByInputToken (fuel : Nat) (tokenIn : Nat) (specifiedTokenA : Bool)
    (slippageToleranceBps : Nat) (fusionPool : FusionPoolFacade)
    (tickArrays : List TickArrayFacade) (transferFeeA transferFeeB : Option TransferFee) :
    Except SwapErr ExactInSwapQuote := do
  let transferFeeIn := if specifiedTokenA then transferFeeA else transferFeeB
  let transferFeeOut := if specifiedTokenA then transferFeeB else transferFeeA
  let tokenInAfterFee ← liftE (tryApplyTransferFee tokenIn (transferFeeIn.getD transferFeeDefault))
  let tickSequence ← liftE (tickArraySequenceNew tickArrays fusionPool.tick_spacing)
  let swapResult ← computeSwap fuel tokenInAfterFee 0 fusionPool tickSequence specifiedTokenA true
  let tokenInAfterFees := if specifiedTokenA then swapResult.token_a else swapResult.token_b
  let tokenEstOutBeforeFee := if specifiedTokenA then swapResult.token_b else swapResult.token_a
  let tokenInFinal ← liftE
    (tryReverseApplyTransferFee tokenInAfterFees (transferFeeIn.getD transferFeeDefault))
  let tokenEstOut ← liftE
    (tryApplyTransferFee tokenEstOutBeforeFee (transferFeeOut.getD transferFeeDefault))
  let tokenMinOut ← liftE (tryGetMinAmountWithSlippageTolerance tokenEstOut slippageToleranceBps)
  pure ⟨tokenInFinal, tokenEstOut, tokenMinOut, swapResult.fee_amount, swapResult.next_sqrt_price⟩

/-- `decrease_limit_order_quote` of `quote/limit_order.rs`.  The unchecked
u64 additions `amount_out + reward_b` / `amount_out + reward_a` (lines 130
and 141) are embedded as wrapping additions mod `2 ^ 64`; the unchecked u64
subtractions `amount - remaining_input` / `amount - amount_in` are embedded
as truncating Nat subtraction (`remaining_input` and `amount_in` never
exceed `amount` for ticks whose remaining part-filled input does not exceed
their part-filled input). -/
def decreaseLimitOrderQuote (fusionPool : FusionPoolFacade) (limitOrder : LimitOrderFacade)
    (tick : TickFacade) (amount : Nat) (transferFeeA transferFeeB : Option TransferFee) :
    Except CoreError LimitOrderDecreaseQuote := do
  if limitOrder.amount < amount then .error .amountExceedsLimitOrderInputAmount
  else do
    let inOut ←
      if limitOrder.age = tick.age then
        pure (amount, 0)
      else if limitOrder.age + 1 = tick.age then do
        if tick.part_filled_orders_input = 0 then .error .limitOrderAndPoolAreOutOfSync
        else do
          let sqrtPrice := tickIndexToSqrtPrice limitOrder.tick_index
          let remainingInput ← tryMulDiv amount tick.part_filled_orders_remaining_input
            tick.part_filled_orders_input false
          let amountOut ← getLimitOrderOutputAmount (amount - remainingInput) limitOrder.a_to_b
            sqrtPrice false
          pure (remainingInput, amountOut)
      else if limitOrder.age + 2 ≤ tick.age then do
        let sqrtPrice := tickIndexToSqrtPrice limitOrder.tick_index
        let amountOut ← getLimitOrderOutputAmount amount limitOrder.a_to_b sqrtPrice false
        pure (0, amountOut)
      else .error .limitOrderAndPoolAreOutOfSync
    let amountIn := inOut.1
    let amountOut := inOut.2
    if limitOrder.a_to_b then do
      let filledAmount := amount - amountIn
      let rewardB ←
        if 0 < filledAmount then
          if fusionPool.orders_filled_amount_a = 0 then .error .limitOrderAndPoolAreOutOfSync
          else tryMulDiv fusionPool.olp_fee_owed_b filledAmount fusionPool.orders_filled_amount_a false
        else pure 0
      let amountOutA ← tryApplyTransferFee amountIn (transferFeeA.getD transferFeeDefault)
      let amountOutB ← tryApplyTransferFee ((amountOut + rewardB) % 2 ^ 64)
        (transferFeeB.getD transferFeeDefault)
      pure ⟨amountOutA, amountOutB, 0, rewardB⟩
    else do
      let filledAmount := amount - amountIn
      let rewardA ←
        if 0 < filledAmount then
          if fusionPool.orders_filled_amount_b = 0 then .error .limitOrderAndPoolAreOutOfSync
          else tryMulDiv fusionPool.olp_fee_owed_a filledAmount fusionPool.orders_filled_amount_b false
        else pure 0
      let amountOutA ← tryApplyTransferFee ((amountOut + rewardA) % 2 ^ 64)
        (transferFeeA.getD transferFeeDefault)
      let amountOutB ← tryApplyTransferFee amountIn (transferFeeB.getD transferFeeDefault)
      pure ⟨amountOutA, amountOutB, rewardA, 0⟩

/-- `TickRange` of `types/tick.rs`. -/
structure TickRange where
  tick_lower_index : Int
  tick_upper_index : Int
deriving DecidableEq, Repr

/-- Modelled from the spec: `order_tick_indexes` of the missing
`math/tick.rs`: the two indices in ascending order. -/
def orderTickIndexes (t1 t2 : Int) : TickRange :=
  if t1 < t2 then ⟨t1, t2⟩ else ⟨t2, t1⟩

/-- `PositionStatus` of `types/position.rs`. -/
inductive PositionStatus where
  | priceInRange
  | priceBelowRange
  | priceAboveRange
  | invalid
deriving DecidableEq, Repr

/-- The `PositionRatio` pair of `types/position.rs` (named `RatioPair`
here). -/
structure RatioPair where
  ratio_a : Nat
  ratio_b : Nat
deriving DecidableEq, Repr

/-- `position_status` of `math/position.rs`. -/
def positionStatus (currentSqrtPrice : Nat) (tickIndex1 tickIndex2 : Int) : PositionStatus :=
  let tickRange := orderTickIndexes tickIndex1 tickIndex2
  let sqrtPriceLower := tickIndexToSqrtPrice tickRange.tick_lower_index
  let sqrtPriceUpper := tickIndexToSqrtPrice tickRange.tick_upper_index
  if tickIndex1 = tickIndex2 then .invalid
  else if currentSqrtPrice ≤ sqrtPriceLower then .priceBelowRange
  else if sqrtPriceUpper ≤ currentSqrtPrice then .priceAboveRange
  else .priceInRange

/-- The in-range `ratio_a` computation of `position_ratio_x64`
(`math/position.rs` lines 89-105).  The `ethnum::U256` multiplications are
embedded with their `% 2^256` wrap made explicit and the final `as_u128`
as `% 2^128`; the U256 and u128 subtractions are Nat subtractions (claim
C10's proof shows every intermediate stays in range on this branch, so the
embedded and the machine arithmetic agree wherever the Rust code
returns). -/
def inRangeRatioA (currentSqrtPrice lowerSqrtPrice upperSqrtPrice : Nat) : Nat :=
  let l : Nat := 1 <<< 64
  let p := currentSqrtPrice * currentSqrtPrice % TWO256
  let depositA1 := (l <<< 64) / currentSqrtPrice
  let depositA2 := (l <<< 64) / upperSqrtPrice
  let depositA := ((depositA1 - depositA2) * p % TWO256) >>> 64
  let depositB1 := currentSqrtPrice - lowerSqrtPrice
  let depositB := l * depositB1 % TWO256
  let totalDeposit := (depositA + depositB) % TWO256
  depositA * (1 <<< 64) % TWO256 / totalDeposit % 2 ^ 128

/-- `position_ratio_x64` of `math/position.rs` (continued): the four
status branches; the in-range `ratio_a` is `inRangeRatioA` above. -/
def positionRatioX64 (currentSqrtPrice : Nat) (tickIndex1 tickIndex2 : Int) : RatioPair :=
  let oneX64 : Nat := 1 <<< 64
  match positionStatus currentSqrtPrice tickIndex1 tickIndex2 with
  | .invalid => ⟨0, 0⟩
  | .priceBelowRange => ⟨oneX64, 0⟩
  | .priceAboveRange => ⟨0, oneX64⟩
  | .priceInRange =>
    let tickRange := orderTickIndexes tickIndex1 tickIndex2
    let lowerSqrtPrice := tickIndexToSqrtPrice tickRange.tick_lower_index
    let upperSqrtPrice := tickIndexToSqrtPrice tickRange.tick_upper_index
    let ratioA := inRangeRatioA currentSqrtPrice lowerSqrtPrice upperSqrtPrice
    ⟨ratioA, oneX64 - ratioA⟩

/-!
Word-level embedding of `math/u256_math.rs`.  A `U256Muldiv` holds four
64-bit words, little-endian, as a list; `self.items[index]` becomes
`List.get?` in the `Option` monad, so an out-of-bounds index — a Rust
panic — is `none`, and every wrapping Rust operation carries its modulus
explicitly.
-/

/-- `U256Muldiv` of `math/u256_math.rs`: four 64-bit words, little-endian. -/
structure U256Muldiv where
  items : List Nat
deriving DecidableEq, Repr

/-- `U256Muldiv::new(h, l)`: words `[l.lo, l.hi, h.lo, h.hi]`. -/
def u256New (h l : Nat) : U256Muldiv :=
  ⟨[l % 2 ^ 64, l / 2 ^ 64 % 2 ^ 64, h % 2 ^ 64, h / 2 ^ 64 % 2 ^ 64]⟩

/-- The all-zero word list. -/
def u256ZeroWords : List Nat := [0, 0, 0, 0]

/-- `num_words`: the index of the highest nonzero word plus one. -/
def wordsNum (w : List Nat) : Nat := (w.reverse.dropWhile (· == 0)).length

/-- The value a little-endian word list denotes. -/
def wordsToNat (w : List Nat) : Nat := w.foldr (fun wi acc => wi + (acc <<< 64)) 0

/-- `hi_lo`: a u128 from two u64 halves. -/
def hiLo (h l : Nat) : Nat := (h <<< 64) ||| l

/-- Bit length by structural recursion on a halving fuel. -/
def bitLen : Nat → Nat → Nat
  | 0, _ => 0
  | fuel + 1, x => if x = 0 then 0 else bitLen fuel (x / 2) + 1

/-- `u64::leading_zeros`. -/
def clz64 (x : Nat) : Nat := 64 - bitLen 64 x

/-- `shift_word_left`: one whole-word logical left shift. -/
def wordsShiftWordLeft (w : List Nat) : List Nat :=
  match w with
  | [w0, w1, w2, _] => [0, w0, w1, w2]
  | l => l

/-- `shift_word_right`: one whole-word logical right shift. -/
def wordsShiftWordRight (w : List Nat) : List Nat :=
  match w with
  | [_, w1, w2, w3] => [w1, w2, w3, 0]
  | l => l

/-- `shift_left` of `math/u256_math.rs`. -/
def wordsShiftLeft (w : List Nat) (s : Nat) : List Nat :=
  if 256 ≤ s then u256ZeroWords
  else
    let r := (List.range (s / 64)).foldl (fun r _ => wordsShiftWordLeft r) w
    let s := s % 64
    if s = 0 then r
    else
      match r with
      | [r0, r1, r2, r3] =>
        [(r0 <<< s) % 2 ^ 64,
         ((r1 <<< s) ||| (r0 >>> (64 - s))) % 2 ^ 64,
         ((r2 <<< s) ||| (r1 >>> (64 - s))) % 2 ^ 64,
         ((r3 <<< s) ||| (r2 >>> (64 - s))) % 2 ^ 64]
      | l => l

/-- `shift_right` of `math/u256_math.rs`. -/
def wordsShiftRight (w : List Nat) (s : Nat) : List Nat :=
  if 256 ≤ s then u256ZeroWords
  else
    let r := (List.range (s / 64)).foldl (fun r _ => wordsShiftWordRight r) w
    let s := s % 64
    if s = 0 then r
    else
      match r with
      | [r0, r1, r2, r3] =>
        [((r0 >>> s) ||| (r1 <<< (64 - s))) % 2 ^ 64,
         ((r1 >>> s) ||| (r2 <<< (64 - s))) % 2 ^ 64,
         ((r2 >>> s) ||| (r3 <<< (64 - s))) % 2 ^ 64,
         r3 >>> s]
      | l => l

/-- The q-hat correction loop of `div_loop` (the `while` over
`qhat.hi() != 0 || cmp2 > cmp1`); the fuel is at least the initial `qhat`,
which bounds its iteration count since every iteration decrements `qhat`. -/
def qhatLoop (d1 d1_2 : Nat) : Nat → Nat × Nat × Nat × Nat → Nat × Nat × Nat × Nat
  | 0, st => st
  | fuel + 1, (qhat, rhat, cmp1, cmp2) =>
    if qhat >>> 64 ≠ 0 ∨ cmp1 < cmp2 then
      let qhat := qhat - 1
      let rhat := rhat + d1
      if rhat >>> 64 ≠ 0 then (qhat, rhat, cmp1, cmp2)
      else qhatLoop d1 d1_2 fuel
        (qhat, rhat, hiLo (rhat % 2 ^ 64) (cmp1 % 2 ^ 64), (2 ^ 128 + cmp2 - d1_2) % 2 ^ 128)
    else (qhat, rhat, cmp1, cmp2)

/-- One pass of the multiply-and-subtract loop of `div_loop`, with the
u128 wrapping subtractions and the u64 wrapping carry made explicit. -/
def mulSubStep (qhat index : Nat) (divisor : List Nat) (st : List Nat × Nat) (i : Nat) :
    Option (List Nat × Nat) := do
  let vi ← divisor.get? i
  let p := qhat * vi % 2 ^ 128
  let di ← st.1.get? (index + i)
  let t := (2 ^ 129 + di - st.2 % 2 ^ 128 - p % 2 ^ 64) % 2 ^ 128
  let k := (2 ^ 64 + (p >>> 64) - (t >>> 64)) % 2 ^ 64
  pure (st.1.set (index + i) (t % 2 ^ 64), k)

/-- One pass of the add-back loop of `div_loop`. -/
def addBackStep (index : Nat) (divisor : List Nat) (st : List Nat × Nat) (i : Nat) :
    Option (List Nat × Nat) := do
  let di ← st.1.get? (index + i)
  let vi ← divisor.get? i
  let t := (di + vi + st.2) % 2 ^ 128
  pure (st.1.set (index + i) (t % 2 ^ 64), t >>> 64)

/-- `div_loop` of `math/u256_math.rs`, one normalized division step:
given the step index, the divisor word count, the running dividend, the
carry word and the running quotient, it yields the advanced
(quotient, dividend, carry).  Every `items[...]` access is a `List.get?`;
in particular the add-back branch reads the word at
`index + num_divisor_words` even when that index is 4 (the `use_carry`
case), which in Rust indexes past the `[u64; 4]` array and panics. -/
def divLoop (index nd : Nat) (dividend0 : List Nat) (carry0 : Nat) (divisor : List Nat)
    (quotient0 : List Nat) : Option (List Nat × List Nat × Nat) := do
  let useCarry := index + nd = 4
  let divHi ← if useCarry then pure carry0 else dividend0.get? (index + nd)
  let dLow ← dividend0.get? (index + nd - 1)
  let d0 := hiLo divHi dLow
  let d1 ← divisor.get? (nd - 1)
  let qhat0 := d0 / d1
  let rhat0 := d0 - d1 * qhat0
  let d0_2 ← dividend0.get? (index + nd - 2)
  let d1_2 ← divisor.get? (nd - 2)
  let cmp1 := hiLo (rhat0 % 2 ^ 64) d0_2
  let cmp2 := qhat0 * d1_2 % 2 ^ 128
  let corrected := qhatLoop d1 d1_2 (qhat0 + 1) (qhat0, rhat0, cmp1, cmp2)
  let qhat := corrected.1
  let ms ← (List.range nd).foldlM (mulSubStep qhat index divisor) (dividend0, 0)
  let k := ms.2
  let dHead ← if useCarry then pure carry0 else ms.1.get? (index + nd)
  let t := (2 ^ 128 + dHead - k % 2 ^ 128) % 2 ^ 128
  let dividend1 := if useCarry then ms.1 else ms.1.set (index + nd) (t % 2 ^ 64)
  let carry1 := if useCarry then t % 2 ^ 64 else carry0
  if dHead < k then do
    let qhat := qhat - 1
    let ab ← (List.range nd).foldlM (addBackStep index divisor) (dividend1, 0)
    let w ← ab.1.get? (index + nd)
    let newCarry := (w + ab.2) % 2 ^ 64
    let dividend2 := if useCarry then ab.1 else ab.1.set (index + nd) newCarry
    let carry2 := if useCarry then newCarry else carry1
    pure (quotient0.set index (qhat % 2 ^ 64), dividend2, carry2)
  else
    pure (quotient0.set index (qhat % 2 ^ 64), dividend1, carry1)

/-- One step of the dedicated single-word-divisor loop of `div` (Case 3). -/
def singleWordStep (dividend : List Nat) (d2 : Nat) (st : List Nat × Nat) (j : Nat) :
    Option (List Nat × Nat) := do
  let w ← dividend.get? j
  let d1 := hiLo (st.2 % 2 ^ 64) w
  let q := d1 / d2
  pure (st.1.set j (q % 2 ^ 64), d1 - d2 * q)

/-- `U256Muldiv::div` of `math/u256_math.rs`: quotient and (optional)
remainder.  `none` models a Rust panic: the `panic!("divide by zero")`
guard, and any out-of-bounds `items[...]` access inside `div_loop`. -/
def u256Div (dividend0 divisor0 : U256Muldiv) (returnRemainder : Bool) :
    Option (U256Muldiv × U256Muldiv) := do
  let dividend := dividend0.items
  let divisor := divisor0.items
  let numDividendWords := wordsNum dividend
  let numDivisorWords := wordsNum divisor
  if numDivisorWords = 0 then none
  else if numDividendWords = 0 then pure (u256New 0 0, u256New 0 0)
  else if numDividendWords < numDivisorWords then
    if returnRemainder then pure (u256New 0 0, dividend0)
    else pure (u256New 0 0, u256New 0 0)
  else if numDividendWords < 3 then
    let dv := wordsToNat dividend
    let ds := wordsToNat divisor
    if returnRemainder then pure (u256New 0 (dv / ds), u256New 0 (dv % ds))
    else pure (u256New 0 (dv / ds), u256New 0 0)
  else if numDivisorWords = 1 then do
    let d2 ← divisor.get? 0
    let res ← (List.range numDividendWords).reverse.foldlM (singleWordStep dividend d2)
      (u256ZeroWords, 0)
    if returnRemainder then pure (⟨res.1⟩, u256New 0 res.2)
    else pure (⟨res.1⟩, u256New 0 0)
  else do
    let sTop ← divisor.get? (numDivisorWords - 1)
    let bTop ← dividend.get? (numDividendWords - 1)
    let s := clz64 sTop
    let b := clz64 bTop
    let carry0 := if numDividendWords = 4 ∧ b < s then bTop >>> (64 - s) else 0
    let dividendN := wordsShiftLeft dividend s
    let divisorN := wordsShiftLeft divisor s
    let res ← (List.range (numDividendWords - numDivisorWords + 1)).reverse.foldlM
      (fun (st : List Nat × List Nat × Nat) j => divLoop j numDivisorWords st.2.1 st.2.2 divisorN st.1)
      (u256ZeroWords, dividendN, carry0)
    if returnRemainder then pure (⟨res.1⟩, ⟨wordsShiftRight res.2.1 s⟩)
    else pure (⟨res.1⟩, u256New 0 0)

/-!
Reference fixtures, embedded from the test module of `quote/swap.rs` (the
tests are part of the repository and pin the reference scenario the spec's
section 8 cites).
-/

/-- Decidable equality of embedded results. -/
instance exceptDecEq {ε α : Type} [DecidableEq ε] [DecidableEq α] : DecidableEq (Except ε α)
  | .ok a, .ok b =>
    if h : a = b then .isTrue (by rw [h]) else .isFalse (by intro c; cases c; exact h rfl)
  | .ok _, .error _ => .isFalse (by intro c; cases c)
  | .error _, .ok _ => .isFalse (by intro c; cases c)
  | .error e, .error f =>
    if h : e = f then .isTrue (by rw [h]) else .isFalse (by intro c; cases c; exact h rfl)

/-- `test_tick` of the `quote/swap.rs` tests. -/
def testTickSwap (liquidityNet : Int) (limitAmount : Nat) : TickFacade :=
  { tickFacadeDefault with
    initialized := true
    liquidity_net := liquidityNet
    part_filled_orders_input := limitAmount
    part_filled_orders_remaining_input := limitAmount }

/-- `test_tick_array` of the `quote/swap.rs` tests. -/
def testTickArraySwap (startTickIndex : Int) : TickArrayFacade :=
  ⟨startTickIndex,
    List.replicate TICK_ARRAY_SIZE
      (testTickSwap (if startTickIndex < 0 then 1000 else -1000) 0)⟩

/-- `test_tick_arrays` of the `quote/swap.rs` tests: five contiguous
arrays around tick zero. -/
def referenceTickArrays : List TickArrayFacade :=
  [testTickArraySwap 0, testTickArraySwap 176, testTickArraySwap 352,
   testTickArraySwap (-176), testTickArraySwap (-352)]

/-- `test_fusion_pool` of the `quote/swap.rs` tests: sqrt-price 2^64
(tick 0), fee rate 3000, tick spacing 2, and the liquidity for the
sufficient- or low-liquidity scenario. -/
def referencePool (sufficientLiq : Bool) : FusionPoolFacade :=
  { fusionPoolDefault with
    tick_current_index := sqrtPriceToTickIndex (1 <<< 64)
    fee_rate := 3000
    liquidity := if sufficientLiq then 100000000 else 265000
    sqrt_price := 1 <<< 64
    tick_spacing := 2 }

/-- The reference pool with the claim C1 literal `fee_rate = 0` in place
of the reference test's 3000. -/
def referencePoolFeeZero : FusionPoolFacade :=
  { referencePool true with fee_rate := 0 }

/-- The validated tick sequence over the reference arrays. -/
def referenceTickSequence : TickArraySequence :=
  match tickArraySequenceNew referenceTickArrays 2 with
  | .ok s => s
  | .error _ => ⟨[], 0⟩

/-- The input/output projection of a quote that claim C1 names. -/
def quoteTriple (q : ExactInSwapQuote) : Nat × Nat × Nat :=
  (q.token_in, q.token_est_out, q.next_sqrt_price)

/-- The pool of the `partially_decrease_fulfilled_a_to_b` test of
`quote/limit_order.rs`. -/
def decreaseFulfilledPool : FusionPoolFacade :=
  { fusionPoolDefault with
    order_protocol_fee_rate := 5000
    orders_filled_amount_a := 100000
    olp_fee_owed_b := 500 }

/-- The limit order of the `partially_decrease_fulfilled_a_to_b` test of
`quote/limit_order.rs`. -/
def decreaseFulfilledOrder : LimitOrderFacade := ⟨128, 100000, true, 5⟩

/-- The tick of the `partially_decrease_fulfilled_a_to_b` test of
`quote/limit_order.rs`. -/
def decreaseFulfilledTick : TickFacade :=
  { tickFacadeDefault with
    age := 7
    fulfilled_a_to_b_orders_input := 100000
    fulfilled_b_to_a_orders_input := 80000 }

/-!
Theorems for the frozen claims.
-/

set_option maxRecDepth 100000

/-- Claim C1, counterexample: with `fee_rate = 0` as the claim literally
states (all else the reference state), `swap_quote_by_input_token(1000,
a_to_b, 1000 bps)` returns `token_est_out = 999` at
`next_sqrt_price = 18446559609958089550`, not the claimed
`996` / `18446560163343826736` (those literals arise at the reference
test's `fee_rate = 3000`). -/
theorem C1_fee_rate_zero_counterexample :
    (swapQuoteByInputToken 50 1000 true 1000 referencePoolFeeZero referenceTickArrays
        none none).map quoteTriple = .ok (1000, 999, 18446559609958089550) ∧
    (swapQuoteByInputToken 50 1000 true 1000 referencePoolFeeZero referenceTickArrays
        none none).map quoteTriple ≠ .ok (1000, 996, 18446560163343826736) := by
  constructor
  · rfl
  · decide

/-- Claim C1 as amended: on the reference pool (sqrt-price 2^64,
`fee_rate = 3000`, liquidity 10^8, tick spacing 2) with the five
contiguous reference tick arrays and no transfer fees,
`swap_quote_by_input_token(1000, a_to_b, 1000 bps)` succeeds with exactly
`token_in = 1000`, `token_est_out = 996`, `token_min_out = 896`,
`trade_fee = 3` and `next_sqrt_price = 18446560163343826736`. -/
theorem C1_reference_quote :
    swapQuoteByInputToken 50 1000 true 1000 (referencePool true) referenceTickArrays
      none none = .ok ⟨1000, 996, 896, 3, 18446560163343826736⟩ := by
  rfl

/-- Claim C4 as amended: `compute_swap` validates before any traversal,
but in a fixed order — bounds of the (defaulted) limit first, then the
direction of the limit against the current price, then the zero-amount
check; each error is reported exactly when the earlier checks pass. -/
theorem C4_compute_swap_validation (fuel tokenAmount sqrtPriceLimit0 : Nat)
    (pool : FusionPoolFacade) (seq : TickArraySequence) (aToB specifiedInput : Bool) :
    (¬(MIN_SQRT_PRICE ≤ defaultedSqrtPriceLimit sqrtPriceLimit0 aToB ∧
        defaultedSqrtPriceLimit sqrtPriceLimit0 aToB ≤ MAX_SQRT_PRICE) →
      computeSwap fuel tokenAmount sqrtPriceLimit0 pool seq aToB specifiedInput =
        .error (.core .sqrtPriceLimitOutOfBounds)) ∧
    ((MIN_SQRT_PRICE ≤ defaultedSqrtPriceLimit sqrtPriceLimit0 aToB ∧
        defaultedSqrtPriceLimit sqrtPriceLimit0 aToB ≤ MAX_SQRT_PRICE) →
      ((aToB ∧ defaultedSqrtPriceLimit sqrtPriceLimit0 aToB ≥ pool.sqrt_price) ∨
        (¬aToB ∧ defaultedSqrtPriceLimit sqrtPriceLimit0 aToB ≤ pool.sqrt_price)) →
      computeSwap fuel tokenAmount sqrtPriceLimit0 pool seq aToB specifiedInput =
        .error (.core .invalidSqrtPriceLimitDirection)) ∧
    ((MIN_SQRT_PRICE ≤ defaultedSqrtPriceLimit sqrtPriceLimit0 aToB ∧
        defaultedSqrtPriceLimit sqrtPriceLimit0 aToB ≤ MAX_SQRT_PRICE) →
      ¬((aToB ∧ defaultedSqrtPriceLimit sqrtPriceLimit0 aToB ≥ pool.sqrt_price) ∨
        (¬aToB ∧ defaultedSqrtPriceLimit sqrtPriceLimit0 aToB ≤ pool.sqrt_price)) →
      tokenAmount = 0 →
      computeSwap fuel tokenAmount sqrtPriceLimit0 pool seq aToB specifiedInput =
        .error (.core .zeroTradableAmount)) := by
  unfold computeSwap computeSwapWithSteps
  refine ⟨fun h => ?_, fun hin hdir => ?_, fun hin hdir hz => ?_⟩
  · rw [if_pos h]
    rfl
  · rw [if_neg (by exact fun c => c hin), if_pos hdir]
    rfl
  · rw [if_neg (by exact fun c => c hin), if_neg hdir, if_pos hz]
    rfl

/-- Claim C4, counterexample: a call with `token_amount = 0` and an
out-of-bounds `sqrt_price_limit = 1` fails with
`SQRT_PRICE_LIMIT_OUT_OF_BOUNDS`, not the `ZERO_TRADABLE_AMOUNT` the claim
promises for every zero-amount call (the bounds check runs first). -/
theorem C4_zero_amount_counterexample :
    computeSwap 10 0 1 (referencePool true) referenceTickSequence true true =
      .error (.core .sqrtPriceLimitOutOfBounds) ∧
    computeSwap 10 0 1 (referencePool true) referenceTickSequence true true ≠
      .error (.core .zeroTradableAmount) := by
  constructor
  · rfl
  · decide

/-- Claim C5: against the low-liquidity reference scenario (liquidity
265000) and the five reference tick arrays, the exact-in a-to-b quote for
3429 fails with `INVALID_TICK_ARRAY_SEQUENCE` (the traversal runs off the
supplied arrays), while 3428 succeeds and consumes its full input. -/
theorem C5_tick_array_exhaustion :
    swapQuoteByInputToken 1000 3429 true 0 (referencePool false) referenceTickArrays
      none none = .error (.core .invalidTickArraySequence) ∧
    swapQuoteByInputToken 1000 3428 true 0 (referencePool false) referenceTickArrays
      none none = .ok ⟨3428, 3032, 3032, 176, 18124937670847186632⟩ := by
  constructor
  · rfl
  · rfl

/-- Claim C8: the divergence witness.  `U256Muldiv::div` panics — the
embedding returns `none` — for the nonzero divisor 2^255 + 1 and dividend
2^255: the quotient estimate of the single normalized division step is one
too large, the add-back branch triggers, and it reads `items[4]` of the
four-word dividend, out of bounds (`div_loop`, `u256_math.rs` line 552),
where the claim requires the quotient 0 and remainder 2^255. -/
theorem C8_div_add_back_panics :
    u256Div (u256New (2 ^ 127) 0) (u256New (2 ^ 127) 1) true = none := by
  rfl

/-- A round-up division is at most `z` when the numerator is at most
`z` times the denominator. -/
theorem divRound_up_le {n d z : Nat} (hd : 0 < d) (h : n ≤ z * d) :
    divRound n d true ≤ z := by
  unfold divRound
  simp only [if_true]
  split
  · have h1 : n / d ≤ z * d / d := Nat.div_le_div_right h
    rw [Nat.mul_div_cancel z hd] at h1
    omega
  · rename_i hmod
    have hlt : n / d < z := by
      by_contra hc
      push_neg at hc
      have h1 : z * d ≤ n / d * d := Nat.mul_le_mul_right d hc
      have h2 : n / d * d + n % d = n := Nat.div_add_mod' n d
      have h3 : 0 < n % d := Nat.pos_of_ne_zero hmod
      linarith
    omega

/-- Applying the zero default transfer fee is the identity. -/
theorem tryApplyTransferFee_default (amount : Nat) :
    tryApplyTransferFee amount transferFeeDefault = .ok amount := by
  simp [tryApplyTransferFee, transferFeeDefault, divRound]

/-- Claim C9: whenever `fill_limit_orders` succeeds in exact-input mode,
the returned `amount_in` plus `fee_amount` never exceeds the
`amount_remaining` argument, it equals `amount_remaining` exactly in the
partial-fill branch, and therefore the two checked subtractions that
`compute_swap` performs next cannot reach their `ARITHMETIC_OVERFLOW`
branch. -/
theorem C9_fill_limit_orders_bound (tick : Option TickFacade) (sqrtPrice : Nat) (aToB : Bool)
    (amountRemaining feeRate : Nat) (hfr : feeRate < 2 ^ 16) (res : LimitSwapComputation)
    (h : fillLimitOrders tick sqrtPrice aToB true amountRemaining feeRate = .ok res) :
    res.amount_in + res.fee_amount ≤ amountRemaining ∧
    (checkedSub amountRemaining res.amount_in = .ok (amountRemaining - res.amount_in) ∧
      checkedSub (amountRemaining - res.amount_in) res.fee_amount =
        .ok (amountRemaining - res.amount_in - res.fee_amount)) ∧
    (∀ tk fullIn fullFee, tick = some tk →
      getLimitOrderOutputAmount
        (tk.open_orders_input + tk.part_filled_orders_remaining_input) (!aToB) sqrtPrice true =
        .ok fullIn →
      tryMulDiv fullIn feeRate (FEE_RATE_MUL_VALUE - feeRate) true = .ok fullFee →
      amountRemaining < fullIn + fullFee →
      res.amount_in + res.fee_amount = amountRemaining) := by
  have hbound : res.amount_in + res.fee_amount ≤ amountRemaining ∧
      (∀ tk fullIn fullFee, tick = some tk →
        getLimitOrderOutputAmount
          (tk.open_orders_input + tk.part_filled_orders_remaining_input) (!aToB) sqrtPrice true =
          .ok fullIn →
        tryMulDiv fullIn feeRate (FEE_RATE_MUL_VALUE - feeRate) true = .ok fullFee →
        amountRemaining < fullIn + fullFee →
        res.amount_in + res.fee_amount = amountRemaining) := by
    cases tick with
    | none =>
      simp only [fillLimitOrders, pure, Except.pure, Except.ok.injEq] at h
      subst h
      refine ⟨by simp [limitSwapDefault], ?_⟩
      intro tk _ _ hsome
      cases hsome
    | some tk =>
      cases hin : getLimitOrderOutputAmount
          (tk.open_orders_input + tk.part_filled_orders_remaining_input) (!aToB) sqrtPrice true with
      | error e =>
        simp only [fillLimitOrders, bind, Except.bind, hin, ite_true] at h
        cases h
      | ok fullIn =>
        cases hfee : tryMulDiv fullIn feeRate (FEE_RATE_MUL_VALUE - feeRate) true with
        | error e =>
          simp only [fillLimitOrders, bind, Except.bind, hin, hfee, ite_true] at h
          cases h
        | ok fullFee =>
          by_cases hpart : amountRemaining < fullIn + fullFee
          · cases hfee2 : tryMulDiv amountRemaining feeRate FEE_RATE_MUL_VALUE true with
            | error e =>
              simp only [fillLimitOrders, bind, Except.bind, hin, hfee, hfee2, ite_true,
                if_pos hpart] at h
              cases h
            | ok fee2 =>
              cases hout2 : tryMulDiv (tk.open_orders_input + tk.part_filled_orders_remaining_input)
                  (amountRemaining - fee2) fullIn false with
              | error e =>
                simp only [fillLimitOrders, bind, Except.bind, hin, hfee, hfee2, hout2, ite_true,
                  if_pos hpart] at h
                cases h
              | ok out2 =>
                simp only [fillLimitOrders, bind, Except.bind, hin, hfee, hfee2, hout2, ite_true,
                  if_pos hpart, pure, Except.pure, Except.ok.injEq] at h
                subst h
                have hfle : fee2 ≤ amountRemaining := by
                  have : divRound (amountRemaining * feeRate) FEE_RATE_MUL_VALUE true ≤
                      amountRemaining := by
                    apply divRound_up_le (by decide)
                    have : feeRate ≤ FEE_RATE_MUL_VALUE := by
                      simp only [FEE_RATE_MUL_VALUE]; omega
                    exact Nat.mul_le_mul_left amountRemaining this
                  simp only [tryMulDiv] at hfee2
                  split at hfee2
                  · cases hfee2; exact this
                  · cases hfee2
                constructor
                · simp only []
                  omega
                · intro tk2 fullIn2 fullFee2 hsome hin2 hfee2b _
                  cases hsome
                  simp only []
                  omega
          · simp only [fillLimitOrders, bind, Except.bind, hin, hfee, ite_true,
              if_neg hpart, pure, Except.pure, Except.ok.injEq] at h
            subst h
            constructor
            · simp only []
              omega
            · intro tk2 fullIn2 fullFee2 hsome hin2 hfee2b hlt
              cases hsome
              rw [hin] at hin2
              cases hin2
              rw [hfee] at hfee2b
              cases hfee2b
              omega
  refine ⟨hbound.1, ⟨?_, ?_⟩, hbound.2⟩
  · simp only [checkedSub, if_pos (by omega : res.amount_in ≤ amountRemaining)]
  · simp only [checkedSub]
    rw [if_pos (by omega : res.fee_amount ≤ amountRemaining - res.amount_in)]

/-- `checked_sub` succeeds exactly when no underflow occurs, returning the
difference. -/
theorem checkedSub_ok_iff {a b v : Nat} : checkedSub a b = .ok v ↔ b ≤ a ∧ a - b = v := by
  unfold checkedSub
  split
  · constructor
    · intro h
      cases h
      exact ⟨by assumption, rfl⟩
    · intro ⟨_, h⟩
      rw [h]
  · constructor
    · intro h
      cases h
    · intro ⟨h, _⟩
      omega

/-- `u64::checked_add` succeeds exactly when the sum fits in a `u64`. -/
theorem checkedAddU64_ok_iff {a b v : Nat} :
    checkedAddU64 a b = .ok v ↔ a + b ≤ U64MAX ∧ a + b = v := by
  unfold checkedAddU64
  split
  · constructor
    · intro h
      cases h
      exact ⟨by assumption, rfl⟩
    · intro ⟨_, h⟩
      rw [h]
  · constructor
    · intro h
      cases h
    · intro ⟨h, _⟩
      omega

/-- One iteration of the `compute_swap` loop consumes from `amount_remaining`
exactly the step's recorded fixed-side amount (plus fee in exact-input mode). -/
theorem swapIter_remaining (feeRate : Nat) (seq : TickArraySequence) (limit : Nat)
    (aToB specIn : Bool) (st st2 : SwapState) (rec : StepRec)
    (h : swapIter feeRate seq limit aToB specIn st = .ok (st2, rec)) :
    st.amountRemaining = st2.amountRemaining + consumedOfRec specIn rec := by
  simp only [swapIter, bind, Except.bind, pure, Except.pure] at h
  repeat' split at h
  all_goals try cases h
  all_goals simp only [checkedSub_ok_iff, checkedAddU64_ok_iff] at *
  all_goals simp_all [consumedOfRec, limitSwapDefault]
  all_goals omega

/-- Over any number of iterations, the `compute_swap` loop consumes from
`amount_remaining` exactly the sum of the per-step consumed amounts. -/
theorem swapLoop_remaining (feeRate : Nat) (seq : TickArraySequence) (limit : Nat)
    (aToB specIn : Bool) :
    ∀ (fuel : Nat) (st fin : SwapState) (recs : List StepRec),
      swapLoop feeRate seq limit aToB specIn fuel st = .ok (fin, recs) →
      st.amountRemaining = fin.amountRemaining + consumedSum specIn recs := by
  intro fuel
  induction fuel with
  | zero =>
    intro st fin recs h
    simp only [swapLoop] at h
    split at h
    · cases h
      simp [consumedSum]
    · cases h
  | succ n ih =>
    intro st fin recs h
    simp only [swapLoop, bind, Except.bind, pure, Except.pure] at h
    split at h
    · cases h
      simp [consumedSum]
    · split at h
      · cases h
      · rename_i step heq
        split at h
        · cases h
        · rename_i rest heq2
          cases h
          have h1 := swapIter_remaining feeRate seq limit aToB specIn st step.1 step.2 heq
          have h2 := ih step.1 rest.1 rest.2 heq2
          simp only [consumedSum, List.map, List.sum_cons] at h2 ⊢
          omega

/-- Claim C2: every successful `compute_swap` call conserves the specified
amount exactly: `token_amount` equals the final `amount_remaining` plus the
total consumed across the loop steps (fixed-side amount plus fee in
exact-input mode, output amount in exact-output mode), and the reported
swapped amount on the specified side equals that same total. -/
theorem C2_compute_swap_conservation (fuel tokenAmount sqrtPriceLimit : Nat)
    (pool : FusionPoolFacade) (seq : TickArraySequence) (aToB specIn : Bool)
    (res : SwapResult) (rem : Nat) (recs : List StepRec)
    (h : computeSwapWithSteps fuel tokenAmount sqrtPriceLimit pool seq aToB specIn =
      .ok (res, rem, recs)) :
    tokenAmount = rem + consumedSum specIn recs ∧
    (if aToB = specIn then res.token_a else res.token_b) = consumedSum specIn recs := by
  simp only [computeSwapWithSteps, bind, Except.bind, pure, Except.pure] at h
  split at h
  · cases h
  · split at h
    · cases h
    · split at h
      · cases h
      · split at h
        · cases h
        · rename_i fin heq
          cases h
          have h1 := swapLoop_remaining pool.fee_rate seq
            (defaultedSqrtPriceLimit sqrtPriceLimit aToB) aToB specIn fuel
            ⟨tokenAmount, 0, pool.sqrt_price, pool.tick_current_index, pool.liquidity, 0⟩
            fin.1 fin.2 heq
          simp only [] at h1
          constructor
          · exact h1
          · by_cases hab : aToB = specIn <;> simp_all

/-- Witness for C2: the conservation law instantiated on the reference
exact-input swap of 1000 units of token A. -/
theorem C2_compute_swap_conservation_witness :
    ∃ (res : SwapResult) (rem : Nat) (recs : List StepRec),
      computeSwapWithSteps 50 1000 0 (referencePool true) referenceTickSequence true true =
        .ok (res, rem, recs) ∧
      (1000 = rem + consumedSum true recs ∧
        (if (true : Bool) = (true : Bool) then res.token_a else res.token_b) =
          consumedSum true recs) := by
  refine ⟨_, _, _, rfl, ?_⟩
  exact C2_compute_swap_conservation 50 1000 0 (referencePool true) referenceTickSequence
    true true _ _ _ rfl

/-- Claim C6: for `decrease_limit_order_quote` with no transfer fees and
`amount ≤ limit_order.amount`: a not-yet-filled order (equal ages) refunds
the full amount in the input token with zero reward; a fulfilled order
(tick age ahead by 2 or more) converts the full amount to the output token
at the order's tick price and adds the pro-rata OLP-fee reward — the latter
provided the sum of the converted amount and the reward fits in u64 (the
code's unchecked u64 addition `amount_out + reward` would otherwise
overflow) and the pool's cumulative filled counter is nonzero when
`amount > 0` (otherwise the code fails instead; see the counterexample). -/
theorem C6_decrease_lifecycle (fusionPool : FusionPoolFacade) (limitOrder : LimitOrderFacade)
    (tick : TickFacade) (amount : Nat) (hamt : amount ≤ limitOrder.amount) :
    (limitOrder.age = tick.age →
      decreaseLimitOrderQuote fusionPool limitOrder tick amount none none =
        .ok ⟨if limitOrder.a_to_b then amount else 0,
             if limitOrder.a_to_b then 0 else amount, 0, 0⟩) ∧
    (limitOrder.age + 2 ≤ tick.age →
      ∀ conv reward : Nat,
      conv = (if limitOrder.a_to_b then
          amount * tickIndexToSqrtPrice limitOrder.tick_index *
            tickIndexToSqrtPrice limitOrder.tick_index / 2 ^ 128
        else amount * 2 ^ 128 / (tickIndexToSqrtPrice limitOrder.tick_index *
            tickIndexToSqrtPrice limitOrder.tick_index)) →
      reward = (if limitOrder.a_to_b then
          fusionPool.olp_fee_owed_b * amount / fusionPool.orders_filled_amount_a
        else fusionPool.olp_fee_owed_a * amount / fusionPool.orders_filled_amount_b) →
      conv + reward ≤ U64MAX →
      (0 < amount → (if limitOrder.a_to_b then fusionPool.orders_filled_amount_a
        else fusionPool.orders_filled_amount_b) ≠ 0) →
      decreaseLimitOrderQuote fusionPool limitOrder tick amount none none =
        .ok ⟨if limitOrder.a_to_b then 0 else conv + reward,
             if limitOrder.a_to_b then conv + reward else 0,
             if limitOrder.a_to_b then 0 else reward,
             if limitOrder.a_to_b then reward else 0⟩) := by
  constructor
  · intro hage
    rw [decreaseLimitOrderQuote, if_neg (by omega)]
    simp only [bind, Except.bind, pure, Except.pure, if_pos hage]
    by_cases hab : limitOrder.a_to_b <;>
      simp [hab, tryApplyTransferFee, transferFeeDefault, divRound]
  · intro hage conv reward hconv hrew hsum hcnt
    have hconvle : conv ≤ U64MAX := le_trans (Nat.le_add_right conv reward) hsum
    have hrewle : reward ≤ U64MAX := le_trans (Nat.le_add_left reward conv) hsum
    rw [decreaseLimitOrderQuote, if_neg (by omega)]
    simp only [bind, Except.bind, pure, Except.pure]
    rw [if_neg (by omega : ¬limitOrder.age = tick.age),
      if_neg (by omega : ¬limitOrder.age + 1 = tick.age), if_pos hage]
    by_cases hab : limitOrder.a_to_b
    · simp only [hab, if_true] at hconv hrew hcnt ⊢
      subst hconv
      subst hrew
      simp only [U64MAX] at hsum
      have hout : getLimitOrderOutputAmount amount true
          (tickIndexToSqrtPrice limitOrder.tick_index) false =
          .ok (amount * tickIndexToSqrtPrice limitOrder.tick_index *
            tickIndexToSqrtPrice limitOrder.tick_index / 2 ^ 128) := by
        simp only [getLimitOrderOutputAmount, mulBySqrtPriceSquared, divRound, if_true,
          Bool.false_eq_true, if_false]
        rw [if_pos (by simpa [U64MAX] using hconvle)]
      rw [hout]
      simp only [Nat.sub_zero]
      by_cases hpos : 0 < amount
      · rw [if_pos hpos, if_neg (hcnt hpos)]
        have hrw : tryMulDiv fusionPool.olp_fee_owed_b amount fusionPool.orders_filled_amount_a
            false = .ok (fusionPool.olp_fee_owed_b * amount / fusionPool.orders_filled_amount_a) := by
          simp [tryMulDiv, divRound, hrewle]
        rw [hrw]
        simp [tryApplyTransferFee, transferFeeDefault, divRound]
        norm_num at hsum
        omega
      · rw [if_neg hpos]
        have hz : amount = 0 := by omega
        subst hz
        simp [tryApplyTransferFee, transferFeeDefault, divRound]
    · simp only [hab, if_false, Bool.false_eq_true] at hconv hrew hcnt ⊢
      subst hconv
      subst hrew
      simp only [U64MAX] at hsum
      have hout : getLimitOrderOutputAmount amount false
          (tickIndexToSqrtPrice limitOrder.tick_index) false =
          .ok (amount * 2 ^ 128 / (tickIndexToSqrtPrice limitOrder.tick_index *
            tickIndexToSqrtPrice limitOrder.tick_index)) := by
        simp only [getLimitOrderOutputAmount, divBySqrtPriceSquared, divRound,
          Bool.false_eq_true, if_false]
        rw [if_pos (by simpa [U64MAX] using hconvle)]
      rw [hout]
      simp only [Nat.sub_zero]
      by_cases hpos : 0 < amount
      · rw [if_pos hpos, if_neg (hcnt hpos)]
        have hrw : tryMulDiv fusionPool.olp_fee_owed_a amount fusionPool.orders_filled_amount_b
            false = .ok (fusionPool.olp_fee_owed_a * amount / fusionPool.orders_filled_amount_b) := by
          simp [tryMulDiv, divRound, hrewle]
        rw [hrw]
        simp [tryApplyTransferFee, transferFeeDefault, divRound]
        norm_num at hsum
        omega
      · rw [if_neg hpos]
        have hz : amount = 0 := by omega
        subst hz
        simp [tryApplyTransferFee, transferFeeDefault, divRound]

/-- Witness for C6: the fulfilled-order test vector (order of 100000 at tick
128, decrease 10000) yields the converted output 10128 plus reward 50. -/
theorem C6_decrease_lifecycle_witness :
    decreaseLimitOrderQuote decreaseFulfilledPool decreaseFulfilledOrder decreaseFulfilledTick
      10000 none none = .ok ⟨0, 10178, 0, 50⟩ := by
  have h := (C6_decrease_lifecycle decreaseFulfilledPool decreaseFulfilledOrder
      decreaseFulfilledTick 10000 (by decide)).2 (by decide) 10128 50 rfl rfl
      (by decide) (fun _ => by decide)
  exact h

/-- Claim C6, counterexample: a fulfilled a→b order decreased by an amount
within its remaining input nevertheless fails when the pool's cumulative
filled counter is zero, instead of returning the claimed converted amount. -/
theorem C6_out_of_sync_counterexample :
    decreaseLimitOrderQuote fusionPoolDefault ⟨0, 10, true, 0⟩
        { tickFacadeDefault with age := 2 } 10 none none =
      .error .limitOrderAndPoolAreOutOfSync := rfl

/-- `try_mul_div` fails only with `AMOUNT_EXCEEDS_MAX_U64`. -/
theorem tryMulDiv_error {a b c : Nat} {r : Bool} {e : CoreError}
    (h : tryMulDiv a b c r = .error e) : e = .amountExceedsMaxU64 := by
  simp only [tryMulDiv] at h
  split at h
  · cases h
  · cases h
    rfl

/-- `get_limit_order_output_amount` fails only with `AMOUNT_EXCEEDS_MAX_U64`. -/
theorem getLimitOrderOutputAmount_error {a : Nat} {d : Bool} {sp : Nat} {r : Bool} {e : CoreError}
    (h : getLimitOrderOutputAmount a d sp r = .error e) : e = .amountExceedsMaxU64 := by
  unfold getLimitOrderOutputAmount at h
  split at h
  · simp only [mulBySqrtPriceSquared] at h
    split at h
    · cases h
    · cases h
      rfl
  · simp only [divBySqrtPriceSquared] at h
    split at h
    · cases h
    · cases h
      rfl

/-- `try_apply_transfer_fee` never fails. -/
theorem tryApplyTransferFee_ne_error {a : Nat} {tf : TransferFee} {e : CoreError}
    (h : tryApplyTransferFee a tf = .error e) : False := by
  simp [tryApplyTransferFee] at h

/-- Claim C7: `decrease_limit_order_quote` fails with
`AMOUNT_EXCEEDS_LIMIT_ORDER_INPUT_AMOUNT` if and only if the requested
amount strictly exceeds the order's remaining input amount, for every pool,
tick, order state and transfer-fee configuration. -/
theorem C7_decrease_error_iff (fusionPool : FusionPoolFacade) (limitOrder : LimitOrderFacade)
    (tick : TickFacade) (amount : Nat) (tfa tfb : Option TransferFee) :
    decreaseLimitOrderQuote fusionPool limitOrder tick amount tfa tfb =
      .error .amountExceedsLimitOrderInputAmount ↔ limitOrder.amount < amount := by
  constructor
  · intro h
    by_contra hle
    rw [decreaseLimitOrderQuote] at h
    rw [if_neg hle] at h
    simp only [bind, Except.bind, pure, Except.pure] at h
    repeat' split at h
    all_goals try cases h
    all_goals try omega
    all_goals
      first
        | (rename_i heq; exact absurd (tryMulDiv_error heq) (by decide))
        | (rename_i heq; exact absurd (getLimitOrderOutputAmount_error heq) (by decide))
        | (rename_i heq; exact tryApplyTransferFee_ne_error heq)
  · intro h
    rw [decreaseLimitOrderQuote, if_pos h]

/-- Witness for C9: filling against a tick with 10000 open input at price
2^64 with 500 remaining and fee rate 10000 consumes 495 + 5 = 500 exactly. -/
theorem C9_fill_limit_orders_bound_witness :
    (495 : Nat) + 5 ≤ 500 :=
  (C9_fill_limit_orders_bound (some (testTickSwap 0 10000)) (1 <<< 64) true 500 10000
    (by decide) ⟨495, 5, 495⟩ rfl).1

/-- The low 64 bits kept after a 256-bit wrap and a 64-bit shift stay below
`2 ^ 192`. -/
theorem mod256_shr64_lt (x : Nat) : (x % TWO256) >>> 64 < 2 ^ 192 := by
  rw [Nat.shiftRight_eq_div_pow]
  rw [Nat.div_lt_iff_lt_mul (by norm_num : (0:Nat) < 2 ^ 64)]
  calc x % TWO256 < TWO256 := Nat.mod_lt _ (by unfold TWO256; norm_num)
    _ = 2 ^ 192 * 2 ^ 64 := by unfold TWO256; norm_num

/-- The in-range ratio fraction `dA·2^64 / (dA + dB)` of `position_ratio_x64`
is below `2 ^ 64` whenever both deltas fit in 192 bits and `dB` is positive. -/
theorem ratio_fraction_lt (dA dB : Nat) (hA : dA < 2 ^ 192) (hBpos : 0 < dB)
    (hB : dB < 2 ^ 192) :
    dA * (1 <<< 64) % TWO256 / ((dA + dB) % TWO256) % 2 ^ 128 < 2 ^ 64 := by
  have h64 : (1 <<< 64 : Nat) = 2 ^ 64 := rfl
  have hsum : (dA + dB) % TWO256 = dA + dB := by
    apply Nat.mod_eq_of_lt; unfold TWO256; omega
  have hprod : dA * (1 <<< 64) % TWO256 = dA * 2 ^ 64 := by
    rw [h64]
    apply Nat.mod_eq_of_lt
    unfold TWO256
    calc dA * 2 ^ 64 < 2 ^ 192 * 2 ^ 64 := by
          exact (Nat.mul_lt_mul_right (by norm_num)).mpr hA
      _ = 2 ^ 256 := by norm_num
  rw [hprod, hsum]
  have hdiv : dA * 2 ^ 64 / (dA + dB) < 2 ^ 64 := by
    rw [Nat.div_lt_iff_lt_mul (by omega : 0 < dA + dB)]
    calc dA * 2 ^ 64 < (dA + dB) * 2 ^ 64 := by
          exact (Nat.mul_lt_mul_right (by norm_num)).mpr (by omega)
      _ = 2 ^ 64 * (dA + dB) := by ring
  calc dA * 2 ^ 64 / (dA + dB) % 2 ^ 128 ≤ dA * 2 ^ 64 / (dA + dB) := Nat.mod_le _ _
    _ < 2 ^ 64 := hdiv

/-- The in-range token-A ratio of `position_ratio_x64` stays below `2 ^ 64`
when the current sqrt price fits in 128 bits and exceeds the lower bound. -/
theorem inRangeRatioA_lt (csp spl spu : Nat) (hcs : csp < 2 ^ 128) (hlo : spl < csp) :
    inRangeRatioA csp spl spu < 2 ^ 64 := by
  unfold inRangeRatioA
  simp only []
  have hBid : (1 <<< 64) * (csp - spl) % TWO256 = 2 ^ 64 * (csp - spl) := by
    rw [show (1 <<< 64 : Nat) = 2 ^ 64 from rfl]
    apply Nat.mod_eq_of_lt
    unfold TWO256
    calc 2 ^ 64 * (csp - spl) ≤ 2 ^ 64 * 2 ^ 128 :=
          Nat.mul_le_mul_left _ (by omega)
      _ < 2 ^ 256 := by norm_num
  apply ratio_fraction_lt
  · exact mod256_shr64_lt _
  · rw [hBid]
    have h1 : 0 < csp - spl := by omega
    positivity
  · rw [hBid]
    calc 2 ^ 64 * (csp - spl) < 2 ^ 64 * 2 ^ 128 :=
          (Nat.mul_lt_mul_left (by norm_num)).mpr (by omega)
      _ = 2 ^ 192 := by norm_num

/-- Claim C10: for any current sqrt price below `2 ^ 128`,
`position_ratio_x64` returns a pair summing exactly to `2 ^ 64` whenever the
two tick indices differ (below-range, above-range and in-range positions
alike), and returns `(0, 0)` exactly in the Invalid case, which occurs if
and only if the two tick indices are equal. -/
theorem C10_position_ratio_sum (csp : Nat) (t1 t2 : Int) (hcs : csp < 2 ^ 128) :
    (positionStatus csp t1 t2 = .invalid ↔ t1 = t2) ∧
    (t1 = t2 → positionRatioX64 csp t1 t2 = ⟨0, 0⟩) ∧
    (t1 ≠ t2 →
      (positionRatioX64 csp t1 t2).ratio_a + (positionRatioX64 csp t1 t2).ratio_b = 2 ^ 64 ∧
      positionRatioX64 csp t1 t2 ≠ ⟨0, 0⟩) := by
  by_cases heq : t1 = t2
  · refine ⟨?_, fun _ => ?_, fun hne => absurd heq hne⟩
    · unfold positionStatus
      simp [heq]
    · unfold positionRatioX64 positionStatus
      simp [heq]
  · refine ⟨?_, fun h => absurd h heq, fun _ => ?_⟩
    · unfold positionStatus
      rw [if_neg heq]
      constructor
      · intro h
        split at h
        · cases h
        · split at h
          · cases h
          · cases h
      · intro h
        exact absurd h heq
    · unfold positionRatioX64 positionStatus
      rw [if_neg heq]
      by_cases hlo : csp ≤ tickIndexToSqrtPrice (orderTickIndexes t1 t2).tick_lower_index
      · rw [if_pos hlo]
        simp
      · rw [if_neg hlo]
        by_cases hhi : tickIndexToSqrtPrice (orderTickIndexes t1 t2).tick_upper_index ≤ csp
        · rw [if_pos hhi]
          simp
        · rw [if_neg hhi]
          push_neg at hlo hhi
          have key := inRangeRatioA_lt csp
            (tickIndexToSqrtPrice (orderTickIndexes t1 t2).tick_lower_index)
            (tickIndexToSqrtPrice (orderTickIndexes t1 t2).tick_upper_index) hcs hlo
          simp only []
          have h64 : (1 <<< 64 : Nat) = 2 ^ 64 := rfl
          constructor
          · rw [h64]
            omega
          · intro hc
            rw [RatioPair.mk.injEq] at hc
            rw [h64] at hc
            omega

/-- Witness for C10: an in-range position between ticks -100 and 100 at the
unit sqrt price has ratios summing to `2 ^ 64`. -/
theorem C10_position_ratio_sum_witness :
    (positionRatioX64 (2 ^ 64) (-100) 100).ratio_a +
      (positionRatioX64 (2 ^ 64) (-100) 100).ratio_b = 2 ^ 64 :=
  ((C10_position_ratio_sum (2 ^ 64) (-100) 100 (by norm_num)).2.2 (by decide)).1


end FusionAmm
